import Mathlib

/-!
Verification of the Currency_chart data-acquisition core.

This file gives a shallow embedding of the orchestrator
`auto_update_data` (src/app/__init__.py, lines 108-266) and of the rate
client `MastercardScraper.get_exchange_rate`
(src/app/mastercard_scraper.py, lines 53-125), and proves or refutes the
frozen claims about them.

Modelling conventions:
* Calendar dates are day numbers `d : Nat` with day 0 a Monday, so that
  `d % 7` equals Python's `date.weekday()` (Monday = 0 .. Sunday = 6) and
  `d % 7 < 5` is the source's weekday test.
* The persisted rate mapping (`local_data`, a JSON object keyed by ISO
  date string) is an association list `Store := List (Nat × Rat)`;
  `max(local_data.keys())` on ISO strings is chronological order, hence
  `maxKey`.  New records are inserted only for absent keys (the source
  guards every insertion with `date_str not in local_data`), so append
  is a faithful dict assignment.
* The network is an input: one `HttpResult` stands for the outcome of
  the `requests.get` call the source makes for a given date and cookie
  set.  For the orchestrator the whole rate client is a stub
  `fetch : Bool → Nat → Option JsonBody`, whose first argument is the
  scraper generation (`False` = the scraper built from the cookies
  present at run start, `True` = the scraper rebuilt after the mid-run
  cookie refresh at src/app/__init__.py line 218).
* The cookie acquirer (`CookieFetcher.fetch_and_save`) is a stubbed
  boolean outcome; the source's `except` branches around it behave the
  same as a `False` return (both print and `break` / `return`).
-/

/-- The distinct shapes of a parsed JSON body, as seen by the callers of
`get_exchange_rate`: the source checks `'data' in data and
'conversionRate' in data['data']` and then runs `float(...)` on the
field (src/app/__init__.py lines 189-191). -/
inductive JsonBody
  /-- A JSON value that is falsy or lacks the `data`/`conversionRate` path. -/
  | missingField
  /-- The field path is present but `float(...)` raises `ValueError`. -/
  | badValue
  /-- The field path is present and parses to `rate`. -/
  | withRate (rate : Rat)
deriving DecidableEq, Repr

/-- The outcome of the single `requests.get` call inside
`get_exchange_rate` (src/app/mastercard_scraper.py lines 100-106):
either the call raised (timeout, transport error), or it produced a
status code and a body; `body = none` means `response.json()` raises
(non-JSON body). -/
inductive HttpResult
  | err (msg : String)
  | resp (status : Nat) (body : Option JsonBody)
deriving DecidableEq, Repr

/-- The `try:` block of `get_exchange_rate`
(src/app/mastercard_scraper.py lines 93-121), with Python exceptions as
`Except.error`: a transport error is the `requests.get` raise, a
status-200 non-JSON body is the `response.json()` raise; status 200
returns the parsed body, status 403 returns `None`, any other status
returns `None`. -/
def get_exchange_rate_try (r : HttpResult) : Except String (Option JsonBody) :=
  match r with
  | .err m => .error m
  | .resp 200 none => .error "JSONDecodeError"
  | .resp 200 (some b) => .ok (some b)
  | .resp 403 _ => .ok none
  | .resp _ _ => .ok none

/-- `MastercardScraper.get_exchange_rate`
(src/app/mastercard_scraper.py lines 53-125): the whole body is wrapped
in `try ... except Exception: return None`, so every exception raised
inside the `try:` block becomes the return value `None`.  The result
type is `Except` to record that the function itself never raises to its
caller: the error case is unreachable. -/
def get_exchange_rate (r : HttpResult) : Except String (Option JsonBody) :=
  match get_exchange_rate_try r with
  | .ok v => .ok v
  | .error _ => .ok none

/-- The persisted date → rate-record mapping (`local_data`), keys being
day numbers. -/
abbrev Store := List (Nat × Rat)

/-- Key membership in the mapping, Python's `date_str in local_data`. -/
def Store.hasDay (s : Store) (d : Nat) : Bool :=
  (List.lookup d s).isSome

/-- `max(local_data.keys())` (src/app/__init__.py line 168); on ISO date
strings lexicographic max is chronological max. -/
def Store.maxKey (s : Store) : Nat :=
  s.foldr (fun p m => max p.1 m) 0

/-- Serialization of the full mapping, standing for
`json.dump(local_data, f, ...)` writing the whole dict
(src/app/__init__.py line 256).  Any injective rendering serves as the
byte content. -/
def serialize (s : Store) : String :=
  String.intercalate ","
    (s.map (fun p => toString p.1 ++ ":" ++ toString p.2.num ++ "/" ++ toString p.2.den))

/-- The file contents a concurrent reader can observe during
`with open(DATA_FILE, 'w') as f: json.dump(local_data, f, ...)`
(src/app/__init__.py lines 255-256): opening with mode `w` truncates the
file in place before `json.dump` writes the new content, so the
observable states are the old content, the truncated (empty) file, and
the new content. -/
def writeObservable (old new : String) : List String :=
  [old, "", new]

/-- The mutable state of one orchestrator run
(src/app/__init__.py lines 167-251): the in-memory mapping, the
`updated_count` / `failed_count` counters and the `cookies_refreshed`
flag, plus ghost instrumentation recording the observable calls: the
number of `CookieFetcher.fetch_and_save` invocations, the number of
mid-run refresh attempts, and the dates passed to
`scraper.get_exchange_rate` in order. -/
structure OrchSt where
  store : Store
  updated : Nat
  failed : Nat
  refreshed : Bool
  acquireCount : Nat
  refreshCount : Nat
  fetchLog : List Nat
  aborted : Bool
deriving DecidableEq

/-- One iteration of the orchestrator's date loop for date `d`
(src/app/__init__.py lines 183-249, excluding the cursor increment):
weekends are skipped, present dates are skipped, otherwise the rate
client is invoked; a parsable success records the rate and resets the
failure counter; a `float` parse error only increments the counter; a
`None`/missing-field result increments the counter and then either
triggers the single cookie refresh with an immediate same-date retry
(when not yet refreshed), aborts when the refresh fails, or aborts when
the counter reaches 2 after a refresh. -/
def stepDate (fetch : Bool → Nat → Option JsonBody) (refreshOk : Bool)
    (d : Nat) (s : OrchSt) : OrchSt :=
  if d % 7 < 5 then
    if s.store.hasDay d = true then s
    else
      let s1 := { s with fetchLog := s.fetchLog ++ [d] }
      match fetch s.refreshed d with
      | some (.withRate rate) =>
          { s1 with store := s1.store ++ [(d, rate)], updated := s1.updated + 1, failed := 0 }
      | some .badValue =>
          { s1 with failed := s1.failed + 1 }
      | _ =>
          let s2 := { s1 with failed := s1.failed + 1 }
          if s2.refreshed = false ∧ 1 ≤ s2.failed then
            if refreshOk = true then
              let s3 := { s2 with failed := 0, refreshed := true,
                                  acquireCount := s2.acquireCount + 1,
                                  refreshCount := s2.refreshCount + 1,
                                  fetchLog := s2.fetchLog ++ [d] }
              match fetch true d with
              | some (.withRate rate) =>
                  { s3 with store := s3.store ++ [(d, rate)], updated := s3.updated + 1 }
              | _ => s3
            else
              { s2 with aborted := true,
                        acquireCount := s2.acquireCount + 1,
                        refreshCount := s2.refreshCount + 1 }
          else if s2.refreshed = true ∧ 2 ≤ s2.failed then
            { s2 with aborted := true }
          else s2
  else s

/-- The orchestrator's `while current_date <= today` loop
(src/app/__init__.py lines 183-251) over the explicit list of dates: a
`break` is modelled by the `aborted` flag, which freezes the state for
the remaining dates. -/
def runDates (fetch : Bool → Nat → Option JsonBody) (refreshOk : Bool) :
    List Nat → OrchSt → OrchSt
  | [], s => s
  | d :: ds, s =>
      if s.aborted = true then s else runDates fetch refreshOk ds (stepDate fetch refreshOk d s)

/-- The most recent weekday on or before `today`
(src/app/__init__.py lines 128-132: decrement while `weekday() >= 5`). -/
def expectedOf (today : Nat) : Nat :=
  if today % 7 = 6 then today - 2
  else if today % 7 = 5 then today - 1
  else today

/-- The first date the loop considers
(src/app/__init__.py lines 166-177): one day after `max(keys)` when the
store is nonempty, else one day after `today - 181`. -/
def computeStart (today : Nat) (store0 : Store) : Nat :=
  (if store0.isEmpty then today - 181 else store0.maxKey) + 1

/-- The inclusive date range `start .. today` walked by the loop. -/
def dateRange (start today : Nat) : List Nat :=
  List.range' start (today + 1 - start)

/-- The number of weekdays in the inclusive span `a .. b`. -/
def countWeekdays (a b : Nat) : Nat :=
  ((dateRange a b).filter (fun d => d % 7 < 5)).length

/-- The number of weekdays in `ds` absent from `s`: the dates on which
the loop will actually invoke the rate client while the store stays
unchanged. -/
def countMissing (s : Store) (ds : List Nat) : Nat :=
  (ds.filter (fun d => d % 7 < 5 && !s.hasDay d)).length

/-- The observable result of one orchestrator run: the final mapping,
the data file's byte content after the run, the sequence of file
contents a concurrent reader could observe, `updated_count`, and the
ghost call records. -/
structure RunResult where
  store : Store
  file : String
  fileStates : List String
  updated : Nat
  acquireCount : Nat
  refreshCount : Nat
  fetchLog : List Nat
  aborted : Bool
  refreshed : Bool
deriving DecidableEq

/-- `auto_update_data` (src/app/__init__.py lines 108-266).
Inputs: `fetch` the rate-client stub (per scraper generation and date),
`refreshOk` the outcome of a mid-run `CookieFetcher.fetch_and_save`,
`cookiesExist` whether `mastercard_cookies.json` exists at run start,
`initialAcquireOk` the outcome of the startup acquisition performed
when it does not, `today` the current date at midnight, `store0` the
loaded `local_data`, `file0` the current byte content of the data file.
The run returns early when the expected date is present (lines 137-139)
or when the startup cookie acquisition fails (lines 144-159); otherwise
it walks the date range and rewrites the data file only when
`updated_count > 0` (lines 254-256). -/
def auto_update_data (fetch : Bool → Nat → Option JsonBody) (refreshOk : Bool)
    (cookiesExist : Bool) (initialAcquireOk : Bool)
    (today : Nat) (store0 : Store) (file0 : String) : RunResult :=
  let expected := expectedOf today
  if store0.hasDay expected = true then
    ⟨store0, file0, [file0], 0, 0, 0, [], false, false⟩
  else if cookiesExist = false ∧ initialAcquireOk = false then
    ⟨store0, file0, [file0], 0, 1, 0, [], false, false⟩
  else
    let acq0 : Nat := if cookiesExist = true then 0 else 1
    let s0 : OrchSt := ⟨store0, 0, 0, false, acq0, 0, [], false⟩
    let s := runDates fetch refreshOk (dateRange (computeStart today store0) today) s0
    let file := if s.updated > 0 then serialize s.store else file0
    let states := if s.updated > 0 then writeObservable file0 (serialize s.store) else [file0]
    ⟨s.store, file, states, s.updated, s.acquireCount, s.refreshCount,
      s.fetchLog, s.aborted, s.refreshed⟩

/-- The rate-client stub that always fails: `get_exchange_rate` returns
`None` for every date under either scraper generation. -/
def failStub : Bool → Nat → Option JsonBody := fun _ _ => none

/-- The rate-client stub that succeeds with a fixed parsable rate for
every date under either scraper generation. -/
def succStub : Bool → Nat → Option JsonBody :=
  fun _ _ => some (.withRate (26 : Rat))

/-! ### Basic facts about the store and the loop -/

theorem Store.hasDay_append (l1 l2 : Store) (d : Nat) :
    Store.hasDay (l1 ++ l2) d = (Store.hasDay l1 d || Store.hasDay l2 d) := by
  induction l1 with
  | nil => simp [Store.hasDay]
  | cons p l ih =>
      by_cases h : d = p.1
      · simp [Store.hasDay, List.lookup, h]
      · simpa [Store.hasDay, List.lookup, beq_false_of_ne h] using ih

theorem Store.hasDay_single (d k : Nat) (r : Rat) :
    Store.hasDay [(k, r)] d = (d == k) := by
  by_cases h : d = k
  · simp [Store.hasDay, List.lookup, h]
  · simp [Store.hasDay, List.lookup, beq_false_of_ne h]

theorem stepDate_weekend (f : Bool → Nat → Option JsonBody) (ro : Bool) (d : Nat)
    (s : OrchSt) (h : ¬ d % 7 < 5) : stepDate f ro d s = s := by
  simp [stepDate, h]

theorem stepDate_present (f : Bool → Nat → Option JsonBody) (ro : Bool) (d : Nat)
    (s : OrchSt) (hw : d % 7 < 5) (hp : s.store.hasDay d = true) :
    stepDate f ro d s = s := by
  simp [stepDate, hw, hp]

theorem stepDate_skip (f : Bool → Nat → Option JsonBody) (ro : Bool) (d : Nat)
    (s : OrchSt) (h : ¬ (d % 7 < 5 ∧ s.store.hasDay d = false)) :
    stepDate f ro d s = s := by
  by_cases hw : d % 7 < 5
  · have hp : s.store.hasDay d = true := by
      rcases Bool.eq_false_or_eq_true (s.store.hasDay d) with h1 | h0
      · exact h1
      · exact absurd ⟨hw, h0⟩ h
    exact stepDate_present f ro d s hw hp
  · exact stepDate_weekend f ro d s hw

theorem stepDate_success (f : Bool → Nat → Option JsonBody) (ro : Bool) (d : Nat)
    (s : OrchSt) (rate : Rat) (hw : d % 7 < 5) (hp : s.store.hasDay d = false)
    (hf : f s.refreshed d = some (.withRate rate)) :
    stepDate f ro d s =
      { s with store := s.store ++ [(d, rate)], updated := s.updated + 1,
               failed := 0, fetchLog := s.fetchLog ++ [d] } := by
  simp [stepDate, hw, hp, hf]

theorem stepDate_badValue (f : Bool → Nat → Option JsonBody) (ro : Bool) (d : Nat)
    (s : OrchSt) (hw : d % 7 < 5) (hp : s.store.hasDay d = false)
    (hf : f s.refreshed d = some .badValue) :
    stepDate f ro d s =
      { s with failed := s.failed + 1, fetchLog := s.fetchLog ++ [d] } := by
  simp [stepDate, hw, hp, hf]

theorem stepDate_fail_fresh_retryFail (f : Bool → Nat → Option JsonBody) (d : Nat)
    (s : OrchSt) (hw : d % 7 < 5) (hp : s.store.hasDay d = false)
    (hr : s.refreshed = false)
    (hf : f s.refreshed d = none ∨ f s.refreshed d = some .missingField)
    (hf2 : ∀ rate, f true d ≠ some (.withRate rate)) :
    stepDate f true d s =
      { s with failed := 0, refreshed := true,
               acquireCount := s.acquireCount + 1,
               refreshCount := s.refreshCount + 1,
               fetchLog := s.fetchLog ++ [d, d] } := by
  rcases hf with hf | hf <;> rw [hr] at hf <;>
  · rcases h2 : f true d with _ | b
    · simp [stepDate, hw, hp, hf, hr, h2]
    · cases b with
      | missingField => simp [stepDate, hw, hp, hf, hr, h2]
      | badValue => simp [stepDate, hw, hp, hf, hr, h2]
      | withRate rate => exact absurd h2 (hf2 rate)

theorem stepDate_fail_fresh_retrySucc (f : Bool → Nat → Option JsonBody) (d : Nat)
    (s : OrchSt) (rate : Rat) (hw : d % 7 < 5) (hp : s.store.hasDay d = false)
    (hr : s.refreshed = false)
    (hf : f s.refreshed d = none ∨ f s.refreshed d = some .missingField)
    (hf2 : f true d = some (.withRate rate)) :
    stepDate f true d s =
      { s with store := s.store ++ [(d, rate)], updated := s.updated + 1,
               failed := 0, refreshed := true,
               acquireCount := s.acquireCount + 1,
               refreshCount := s.refreshCount + 1,
               fetchLog := s.fetchLog ++ [d, d] } := by
  rcases hf with hf | hf <;> rw [hr] at hf <;> simp [stepDate, hw, hp, hf, hr, hf2]

theorem stepDate_fail_fresh_noRefresh (f : Bool → Nat → Option JsonBody) (d : Nat)
    (s : OrchSt) (hw : d % 7 < 5) (hp : s.store.hasDay d = false)
    (hr : s.refreshed = false)
    (hf : f s.refreshed d = none ∨ f s.refreshed d = some .missingField) :
    stepDate f false d s =
      { s with failed := s.failed + 1, aborted := true,
               acquireCount := s.acquireCount + 1,
               refreshCount := s.refreshCount + 1,
               fetchLog := s.fetchLog ++ [d] } := by
  rcases hf with hf | hf <;> rw [hr] at hf <;> simp [stepDate, hw, hp, hf, hr]

theorem stepDate_fail_refreshed_low (f : Bool → Nat → Option JsonBody) (ro : Bool)
    (d : Nat) (s : OrchSt) (hw : d % 7 < 5) (hp : s.store.hasDay d = false)
    (hr : s.refreshed = true) (hc : s.failed = 0)
    (hf : f s.refreshed d = none ∨ f s.refreshed d = some .missingField) :
    stepDate f ro d s =
      { s with failed := 1, fetchLog := s.fetchLog ++ [d] } := by
  rcases hf with hf | hf <;> rw [hr] at hf <;> simp [stepDate, hw, hp, hf, hr, hc]

theorem stepDate_fail_refreshed_abort (f : Bool → Nat → Option JsonBody) (ro : Bool)
    (d : Nat) (s : OrchSt) (hw : d % 7 < 5) (hp : s.store.hasDay d = false)
    (hr : s.refreshed = true) (hc : 1 ≤ s.failed)
    (hf : f s.refreshed d = none ∨ f s.refreshed d = some .missingField) :
    stepDate f ro d s =
      { s with failed := s.failed + 1, aborted := true,
               fetchLog := s.fetchLog ++ [d] } := by
  rcases hf with hf | hf <;> rw [hr] at hf <;>
    simp [stepDate, hw, hp, hf, hr, Nat.succ_le_succ hc]

theorem runDates_aborted (f : Bool → Nat → Option JsonBody) (ro : Bool)
    (ds : List Nat) (s : OrchSt) (h : s.aborted = true) :
    runDates f ro ds s = s := by
  cases ds with
  | nil => rfl
  | cons d ds => simp [runDates, h]

/-- Once `cookies_refreshed` is set, an iteration never invokes the
cookie acquirer again and never clears the flag. -/
theorem stepDate_refreshed_frozen (f : Bool → Nat → Option JsonBody) (ro : Bool)
    (d : Nat) (s : OrchSt) (h : s.refreshed = true) :
    (stepDate f ro d s).refreshed = true ∧
    (stepDate f ro d s).acquireCount = s.acquireCount ∧
    (stepDate f ro d s).refreshCount = s.refreshCount := by
  by_cases hw : d % 7 < 5
  · by_cases hp : s.store.hasDay d = true
    · rw [stepDate_present f ro d s hw hp]; exact ⟨h, rfl, rfl⟩
    · have hp2 : s.store.hasDay d = false := by
        rcases Bool.eq_false_or_eq_true (s.store.hasDay d) with h1 | h0
        · exact absurd h1 hp
        · exact h0
      rcases hfr : f s.refreshed d with _ | b
      · rcases Nat.eq_zero_or_pos s.failed with hc | hc
        · rw [stepDate_fail_refreshed_low f ro d s hw hp2 h hc (Or.inl hfr)]
          exact ⟨h, rfl, rfl⟩
        · rw [stepDate_fail_refreshed_abort f ro d s hw hp2 h hc (Or.inl hfr)]
          exact ⟨h, rfl, rfl⟩
      · cases b with
        | missingField =>
            rcases Nat.eq_zero_or_pos s.failed with hc | hc
            · rw [stepDate_fail_refreshed_low f ro d s hw hp2 h hc (Or.inr hfr)]
              exact ⟨h, rfl, rfl⟩
            · rw [stepDate_fail_refreshed_abort f ro d s hw hp2 h hc (Or.inr hfr)]
              exact ⟨h, rfl, rfl⟩
        | badValue =>
            rw [stepDate_badValue f ro d s hw hp2 hfr]; exact ⟨h, rfl, rfl⟩
        | withRate rate =>
            rw [stepDate_success f ro d s rate hw hp2 hfr]; exact ⟨h, rfl, rfl⟩
  · rw [stepDate_weekend f ro d s hw]; exact ⟨h, rfl, rfl⟩

theorem runDates_refreshed_frozen (f : Bool → Nat → Option JsonBody) (ro : Bool)
    (ds : List Nat) : ∀ s : OrchSt, s.refreshed = true →
    (runDates f ro ds s).refreshed = true ∧
    (runDates f ro ds s).acquireCount = s.acquireCount ∧
    (runDates f ro ds s).refreshCount = s.refreshCount := by
  induction ds with
  | nil => exact fun s h => ⟨h, rfl, rfl⟩
  | cons d ds ih =>
      intro s h
      by_cases hab : s.aborted = true
      · simp [runDates, hab, h]
      · have hab2 : s.aborted = false := by
          rcases Bool.eq_false_or_eq_true s.aborted with h1 | h0
          · exact absurd h1 hab
          · exact h0
        obtain ⟨h1, h2, h3⟩ := stepDate_refreshed_frozen f ro d s h
        obtain ⟨g1, g2, g3⟩ := ih (stepDate f ro d s) h1
        refine ⟨?_, ?_, ?_⟩ <;> simp [runDates, hab2, g1, g2, g3, h2, h3]

theorem bool_eq_false_of_not {b : Bool} (h : ¬ b = true) : b = false := by
  rcases Bool.eq_false_or_eq_true b with h1 | h0
  · exact absurd h1 h
  · exact h0

/-- From an un-refreshed state, one iteration either leaves the
refresh/acquire counters untouched (and the flag clear), or performs the
one refresh attempt: both counters go up by exactly one and the
iteration ends refreshed or aborted. -/
theorem stepDate_counts_fresh (f : Bool → Nat → Option JsonBody) (ro : Bool)
    (d : Nat) (s : OrchSt) (hr : s.refreshed = false) :
    ((stepDate f ro d s).refreshed = false ∧
     (stepDate f ro d s).acquireCount = s.acquireCount ∧
     (stepDate f ro d s).refreshCount = s.refreshCount) ∨
    ((stepDate f ro d s).acquireCount = s.acquireCount + 1 ∧
     (stepDate f ro d s).refreshCount = s.refreshCount + 1 ∧
     ((stepDate f ro d s).refreshed = true ∨ (stepDate f ro d s).aborted = true)) := by
  by_cases hw : d % 7 < 5
  · by_cases hp : s.store.hasDay d = true
    · rw [stepDate_present f ro d s hw hp]; exact Or.inl ⟨hr, rfl, rfl⟩
    · have hp2 : s.store.hasDay d = false := bool_eq_false_of_not hp
      rcases hfr : f s.refreshed d with _ | b
      · cases ro with
        | false =>
            rw [stepDate_fail_fresh_noRefresh f d s hw hp2 hr (Or.inl hfr)]
            exact Or.inr ⟨rfl, rfl, Or.inr rfl⟩
        | true =>
            by_cases h2 : ∃ rate, f true d = some (.withRate rate)
            · obtain ⟨rate, h2⟩ := h2
              rw [stepDate_fail_fresh_retrySucc f d s rate hw hp2 hr (Or.inl hfr) h2]
              exact Or.inr ⟨rfl, rfl, Or.inl rfl⟩
            · rw [stepDate_fail_fresh_retryFail f d s hw hp2 hr (Or.inl hfr)
                (fun rate hc => h2 ⟨rate, hc⟩)]
              exact Or.inr ⟨rfl, rfl, Or.inl rfl⟩
      · cases b with
        | missingField =>
            cases ro with
            | false =>
                rw [stepDate_fail_fresh_noRefresh f d s hw hp2 hr (Or.inr hfr)]
                exact Or.inr ⟨rfl, rfl, Or.inr rfl⟩
            | true =>
                by_cases h2 : ∃ rate, f true d = some (.withRate rate)
                · obtain ⟨rate, h2⟩ := h2
                  rw [stepDate_fail_fresh_retrySucc f d s rate hw hp2 hr (Or.inr hfr) h2]
                  exact Or.inr ⟨rfl, rfl, Or.inl rfl⟩
                · rw [stepDate_fail_fresh_retryFail f d s hw hp2 hr (Or.inr hfr)
                    (fun rate hc => h2 ⟨rate, hc⟩)]
                  exact Or.inr ⟨rfl, rfl, Or.inl rfl⟩
        | badValue =>
            rw [stepDate_badValue f ro d s hw hp2 hfr]; exact Or.inl ⟨hr, rfl, rfl⟩
        | withRate rate =>
            rw [stepDate_success f ro d s rate hw hp2 hfr]; exact Or.inl ⟨hr, rfl, rfl⟩
  · rw [stepDate_weekend f ro d s hw]; exact Or.inl ⟨hr, rfl, rfl⟩

/-- Across the whole date loop started un-refreshed, the cookie
acquirer is invoked at most once and the refresh counter rises at most
once. -/
theorem runDates_refresh_atMostOnce (f : Bool → Nat → Option JsonBody) (ro : Bool)
    (ds : List Nat) : ∀ s : OrchSt, s.refreshed = false →
    (runDates f ro ds s).acquireCount ≤ s.acquireCount + 1 ∧
    (runDates f ro ds s).refreshCount ≤ s.refreshCount + 1 := by
  induction ds with
  | nil => exact fun s _ => ⟨Nat.le_succ _, Nat.le_succ _⟩
  | cons d ds ih =>
      intro s hr
      by_cases hab : s.aborted = true
      · rw [runDates_aborted f ro (d :: ds) s hab]
        exact ⟨Nat.le_succ _, Nat.le_succ _⟩
      · have hab2 : s.aborted = false := bool_eq_false_of_not hab
        have hstep : runDates f ro (d :: ds) s = runDates f ro ds (stepDate f ro d s) := by
          simp [runDates, hab2]
        rw [hstep]
        rcases stepDate_counts_fresh f ro d s hr with ⟨h1, h2, h3⟩ | ⟨h2, h3, h1 | h1⟩
        · obtain ⟨g1, g2⟩ := ih (stepDate f ro d s) h1
          omega
        · obtain ⟨-, g2, g3⟩ := runDates_refreshed_frozen f ro ds (stepDate f ro d s) h1
          omega
        · rw [runDates_aborted f ro ds (stepDate f ro d s) h1]
          omega

theorem countMissing_cons_missing (s : Store) (d : Nat) (ds : List Nat)
    (hw : d % 7 < 5) (hp : s.hasDay d = false) :
    countMissing s (d :: ds) = countMissing s ds + 1 := by
  simp [countMissing, List.filter_cons, hw, hp]

theorem countMissing_cons_skip (s : Store) (d : Nat) (ds : List Nat)
    (h : ¬ (d % 7 < 5 ∧ s.hasDay d = false)) :
    countMissing s (d :: ds) = countMissing s ds := by
  by_cases hw : d % 7 < 5
  · have hp : s.hasDay d = true := by
      rcases Bool.eq_false_or_eq_true (s.hasDay d) with h1 | h0
      · exact h1
      · exact absurd ⟨hw, h0⟩ h
    simp [countMissing, List.filter_cons, hw, hp]
  · simp [countMissing, List.filter_cons, hw]

/-- Phase three of the circuit breaker under an always-failing client:
already refreshed, one post-refresh failure on the counter; the next
missing weekday aborts the run. -/
theorem runDates_failStub_refreshed_one (ds : List Nat) : ∀ s : OrchSt,
    s.aborted = false → s.refreshed = true → s.failed = 1 →
    1 ≤ countMissing s.store ds →
    (runDates failStub true ds s).aborted = true ∧
    (runDates failStub true ds s).updated = s.updated ∧
    (runDates failStub true ds s).store = s.store ∧
    (runDates failStub true ds s).acquireCount = s.acquireCount ∧
    (runDates failStub true ds s).refreshCount = s.refreshCount ∧
    (runDates failStub true ds s).fetchLog.length = s.fetchLog.length + 1 := by
  induction ds with
  | nil => intro s _ _ _ hc; simp [countMissing] at hc
  | cons d ds ih =>
      intro s hab hr hc1 hcnt
      have hstep : runDates failStub true (d :: ds) s =
          runDates failStub true ds (stepDate failStub true d s) := by
        simp [runDates, hab]
      by_cases hm : d % 7 < 5 ∧ s.store.hasDay d = false
      · have habort := stepDate_fail_refreshed_abort failStub true d s hm.1 hm.2 hr
          (by omega) (Or.inl rfl)
        rw [hstep, habort,
          runDates_aborted failStub true ds _ (by simp)]
        simp
      · rw [hstep, stepDate_skip failStub true d s hm]
        have := countMissing_cons_skip s.store d ds hm
        exact ih s hab hr hc1 (by omega)

/-- Phase two of the circuit breaker under an always-failing client:
just refreshed, counter reset; two further missing weekdays abort the
run. -/
theorem runDates_failStub_refreshed_zero (ds : List Nat) : ∀ s : OrchSt,
    s.aborted = false → s.refreshed = true → s.failed = 0 →
    2 ≤ countMissing s.store ds →
    (runDates failStub true ds s).aborted = true ∧
    (runDates failStub true ds s).updated = s.updated ∧
    (runDates failStub true ds s).store = s.store ∧
    (runDates failStub true ds s).acquireCount = s.acquireCount ∧
    (runDates failStub true ds s).refreshCount = s.refreshCount ∧
    (runDates failStub true ds s).fetchLog.length = s.fetchLog.length + 2 := by
  induction ds with
  | nil => intro s _ _ _ hc; simp [countMissing] at hc
  | cons d ds ih =>
      intro s hab hr hc0 hcnt
      have hstep : runDates failStub true (d :: ds) s =
          runDates failStub true ds (stepDate failStub true d s) := by
        simp [runDates, hab]
      by_cases hm : d % 7 < 5 ∧ s.store.hasDay d = false
      · have hlow := stepDate_fail_refreshed_low failStub true d s hm.1 hm.2 hr hc0
          (Or.inl rfl)
        have hcons := countMissing_cons_missing s.store d ds hm.1 hm.2
        rw [hstep, hlow]
        obtain ⟨g1, g2, g3, g4, g5, g6⟩ :=
          runDates_failStub_refreshed_one ds
            { s with failed := 1, fetchLog := s.fetchLog ++ [d] }
            (by simp [hab]) (by simp [hr]) (by simp) (by simp; omega)
        refine ⟨g1, ?_, ?_, ?_, ?_, ?_⟩ <;> simp_all
      · rw [hstep, stepDate_skip failStub true d s hm]
        have := countMissing_cons_skip s.store d ds hm
        exact ih s hab hr hc0 (by omega)

/-- Phase one of the circuit breaker under an always-failing client:
un-refreshed; the first missing weekday triggers the single refresh and
same-date retry, and two further missing weekdays abort the run with no
record added and exactly four client calls. -/
theorem runDates_failStub_fresh (ds : List Nat) : ∀ s : OrchSt,
    s.aborted = false → s.refreshed = false →
    3 ≤ countMissing s.store ds →
    (runDates failStub true ds s).aborted = true ∧
    (runDates failStub true ds s).updated = s.updated ∧
    (runDates failStub true ds s).store = s.store ∧
    (runDates failStub true ds s).acquireCount = s.acquireCount + 1 ∧
    (runDates failStub true ds s).refreshCount = s.refreshCount + 1 ∧
    (runDates failStub true ds s).fetchLog.length = s.fetchLog.length + 4 := by
  induction ds with
  | nil => intro s _ _ hc; simp [countMissing] at hc
  | cons d ds ih =>
      intro s hab hr hcnt
      have hstep : runDates failStub true (d :: ds) s =
          runDates failStub true ds (stepDate failStub true d s) := by
        simp [runDates, hab]
      by_cases hm : d % 7 < 5 ∧ s.store.hasDay d = false
      · have hrefresh := stepDate_fail_fresh_retryFail failStub d s hm.1 hm.2 hr
          (Or.inl rfl) (fun rate hc => by simp [failStub] at hc)
        have hcons := countMissing_cons_missing s.store d ds hm.1 hm.2
        rw [hstep, hrefresh]
        obtain ⟨g1, g2, g3, g4, g5, g6⟩ :=
          runDates_failStub_refreshed_zero ds
            { s with failed := 0, refreshed := true,
                     acquireCount := s.acquireCount + 1,
                     refreshCount := s.refreshCount + 1,
                     fetchLog := s.fetchLog ++ [d, d] }
            (by simp [hab]) (by simp) (by simp) (by simp; omega)
        refine ⟨g1, ?_, ?_, ?_, ?_, ?_⟩ <;> simp_all
      · rw [hstep, stepDate_skip failStub true d s hm]
        have := countMissing_cons_skip s.store d ds hm
        exact ih s hab hr (by omega)

/-- One iteration only ever extends the store with a record for its own
date, and only when that date is a weekday; likewise the client is only
called on the iteration's own weekday date. -/
theorem stepDate_effect_weekday (f : Bool → Nat → Option JsonBody) (ro : Bool)
    (d : Nat) (s : OrchSt) :
    ((stepDate f ro d s).store = s.store ∨
     (∃ r, (stepDate f ro d s).store = s.store ++ [(d, r)]) ∧ d % 7 < 5) ∧
    ((stepDate f ro d s).fetchLog = s.fetchLog ∨
     ((stepDate f ro d s).fetchLog = s.fetchLog ++ [d] ∨
      (stepDate f ro d s).fetchLog = s.fetchLog ++ [d, d]) ∧ d % 7 < 5) := by
  by_cases hw : d % 7 < 5
  · by_cases hp : s.store.hasDay d = true
    · rw [stepDate_present f ro d s hw hp]; exact ⟨Or.inl rfl, Or.inl rfl⟩
    · have hp2 : s.store.hasDay d = false := bool_eq_false_of_not hp
      have hfail : ∀ hf : f s.refreshed d = none ∨ f s.refreshed d = some .missingField,
          ((stepDate f ro d s).store = s.store ∨
           (∃ r, (stepDate f ro d s).store = s.store ++ [(d, r)]) ∧ d % 7 < 5) ∧
          ((stepDate f ro d s).fetchLog = s.fetchLog ∨
           ((stepDate f ro d s).fetchLog = s.fetchLog ++ [d] ∨
            (stepDate f ro d s).fetchLog = s.fetchLog ++ [d, d]) ∧ d % 7 < 5) := by
        intro hf
        rcases Bool.eq_false_or_eq_true s.refreshed with hr | hr
        · rcases Nat.eq_zero_or_pos s.failed with hc | hc
          · rw [stepDate_fail_refreshed_low f ro d s hw hp2 hr hc hf]
            exact ⟨Or.inl rfl, Or.inr ⟨Or.inl rfl, hw⟩⟩
          · rw [stepDate_fail_refreshed_abort f ro d s hw hp2 hr hc hf]
            exact ⟨Or.inl rfl, Or.inr ⟨Or.inl rfl, hw⟩⟩
        · cases ro with
          | false =>
              rw [stepDate_fail_fresh_noRefresh f d s hw hp2 hr hf]
              exact ⟨Or.inl rfl, Or.inr ⟨Or.inl rfl, hw⟩⟩
          | true =>
              by_cases h2 : ∃ rate, f true d = some (.withRate rate)
              · obtain ⟨rate, h2⟩ := h2
                rw [stepDate_fail_fresh_retrySucc f d s rate hw hp2 hr hf h2]
                exact ⟨Or.inr ⟨⟨rate, rfl⟩, hw⟩, Or.inr ⟨Or.inr rfl, hw⟩⟩
              · rw [stepDate_fail_fresh_retryFail f d s hw hp2 hr hf
                  (fun rate hc => h2 ⟨rate, hc⟩)]
                exact ⟨Or.inl rfl, Or.inr ⟨Or.inr rfl, hw⟩⟩
      rcases hfr : f s.refreshed d with _ | b
      · exact hfail (Or.inl hfr)
      · cases b with
        | missingField => exact hfail (Or.inr hfr)
        | badValue =>
            rw [stepDate_badValue f ro d s hw hp2 hfr]
            exact ⟨Or.inl rfl, Or.inr ⟨Or.inl rfl, hw⟩⟩
        | withRate rate =>
            rw [stepDate_success f ro d s rate hw hp2 hfr]
            exact ⟨Or.inr ⟨⟨rate, rfl⟩, hw⟩, Or.inr ⟨Or.inl rfl, hw⟩⟩
  · rw [stepDate_weekend f ro d s hw]; exact ⟨Or.inl rfl, Or.inl rfl⟩

/-- Across the whole loop: everything new in the store, and everything
in the client call log, is a weekday. -/
theorem runDates_weekday_inv (f : Bool → Nat → Option JsonBody) (ro : Bool)
    (ds : List Nat) : ∀ s : OrchSt,
    (∀ p, p ∈ (runDates f ro ds s).store → p ∈ s.store ∨ p.1 % 7 < 5) ∧
    (∀ x, x ∈ (runDates f ro ds s).fetchLog → x ∈ s.fetchLog ∨ x % 7 < 5) := by
  induction ds with
  | nil => exact fun s => ⟨fun p hp => Or.inl hp, fun x hx => Or.inl hx⟩
  | cons d ds ih =>
      intro s
      by_cases hab : s.aborted = true
      · rw [runDates_aborted f ro (d :: ds) s hab]
        exact ⟨fun p hp => Or.inl hp, fun x hx => Or.inl hx⟩
      · have hab2 : s.aborted = false := bool_eq_false_of_not hab
        have hstep : runDates f ro (d :: ds) s =
            runDates f ro ds (stepDate f ro d s) := by
          simp [runDates, hab2]
        rw [hstep]
        obtain ⟨ihs, ihl⟩ := ih (stepDate f ro d s)
        obtain ⟨es, el⟩ := stepDate_effect_weekday f ro d s
        constructor
        · intro p hp
          rcases ihs p hp with hmem | hwk
          · rcases es with hsame | ⟨⟨r, happ⟩, hwd⟩
            · exact Or.inl (hsame ▸ hmem)
            · rw [happ] at hmem
              rcases List.mem_append.1 hmem with h1 | h1
              · exact Or.inl h1
              · right
                have : p = (d, r) := by simpa using h1
                rw [this]
                exact hwd
          · exact Or.inr hwk
        · intro x hx
          rcases ihl x hx with hmem | hwk
          · rcases el with hsame | ⟨happ, hwd⟩
            · exact Or.inl (hsame ▸ hmem)
            · rcases happ with happ | happ <;> rw [happ] at hmem <;>
                rcases List.mem_append.1 hmem with h1 | h1
              · exact Or.inl h1
              · right; have : x = d := by simpa using h1
                rw [this]; exact hwd
              · exact Or.inl h1
              · right
                have : x = d := by
                  rcases List.mem_cons.1 h1 with h2 | h2
                  · exact h2
                  · simpa using h2
                rw [this]; exact hwd
          · exact Or.inr hwk

/-- Under an all-success client, the loop records exactly the absent
weekdays it visits, in order, calling the client once per such date and
never aborting. -/
theorem runDates_succStub (ro : Bool) (ds : List Nat) : ∀ s : OrchSt,
    s.aborted = false → ds.Nodup → (∀ d ∈ ds, s.store.hasDay d = false) →
    (runDates succStub ro ds s).updated =
      s.updated + (ds.filter (fun d => d % 7 < 5)).length ∧
    (runDates succStub ro ds s).fetchLog =
      s.fetchLog ++ ds.filter (fun d => d % 7 < 5) ∧
    (runDates succStub ro ds s).store =
      s.store ++ (ds.filter (fun d => d % 7 < 5)).map (fun d => (d, (26 : Rat))) ∧
    (runDates succStub ro ds s).aborted = false := by
  induction ds with
  | nil => intro s hab _ _; simp [runDates, hab]
  | cons d ds ih =>
      intro s hab hnd hmiss
      have hstep : runDates succStub ro (d :: ds) s =
          runDates succStub ro ds (stepDate succStub ro d s) := by
        simp [runDates, hab]
      have hnd2 := List.nodup_cons.1 hnd
      by_cases hw : d % 7 < 5
      · have hpd : s.store.hasDay d = false := hmiss d (List.mem_cons_self d ds)
        have hsucc := stepDate_success succStub ro d s ((26 : Rat)) hw hpd rfl
        have hmiss2 : ∀ d2 ∈ ds,
            Store.hasDay (s.store ++ [(d, (26 : Rat))]) d2 = false := by
          intro d2 hd2
          rw [Store.hasDay_append, hmiss d2 (List.mem_cons_of_mem d hd2),
            Store.hasDay_single]
          have hne : d2 ≠ d := fun h => hnd2.1 (h ▸ hd2)
          simp [hne]
        obtain ⟨g1, g2, g3, g4⟩ := ih
          { s with store := s.store ++ [(d, (26 : Rat))],
                   updated := s.updated + 1, failed := 0,
                   fetchLog := s.fetchLog ++ [d] }
          (by simp [hab]) hnd2.2 (by simpa using hmiss2)
        rw [hstep, hsucc]
        refine ⟨?_, ?_, ?_, g4⟩
        · rw [g1]; simp [List.filter_cons, hw]; omega
        · rw [g2]; simp [List.filter_cons, hw]
        · rw [g3]; simp [List.filter_cons, hw]
      · have hskip : stepDate succStub ro d s = s := stepDate_weekend succStub ro d s hw
        obtain ⟨g1, g2, g3, g4⟩ := ih s hab hnd2.2
          (fun d2 h2 => hmiss d2 (List.mem_cons_of_mem d h2))
        rw [hstep, hskip]
        refine ⟨?_, ?_, ?_, g4⟩ <;> simp_all [List.filter_cons, hw]

/-! ### Run-level unfoldings of `auto_update_data` -/

theorem run_eq_present (f : Bool → Nat → Option JsonBody) (ro ce io : Bool)
    (today : Nat) (store0 : Store) (file0 : String)
    (h : store0.hasDay (expectedOf today) = true) :
    auto_update_data f ro ce io today store0 file0 =
      ⟨store0, file0, [file0], 0, 0, 0, [], false, false⟩ := by
  simp [auto_update_data, h]

theorem run_eq_acquireFail (f : Bool → Nat → Option JsonBody) (ro : Bool)
    (today : Nat) (store0 : Store) (file0 : String)
    (h : store0.hasDay (expectedOf today) = false) :
    auto_update_data f ro false false today store0 file0 =
      ⟨store0, file0, [file0], 0, 1, 0, [], false, false⟩ := by
  simp [auto_update_data, h]

theorem run_eq_main (f : Bool → Nat → Option JsonBody) (ro ce io : Bool)
    (today : Nat) (store0 : Store) (file0 : String)
    (h : store0.hasDay (expectedOf today) = false)
    (h2 : ¬ (ce = false ∧ io = false)) :
    auto_update_data f ro ce io today store0 file0 =
      ⟨(runDates f ro (dateRange (computeStart today store0) today)
          ⟨store0, 0, 0, false, if ce = true then 0 else 1, 0, [], false⟩).store,
        if (runDates f ro (dateRange (computeStart today store0) today)
          ⟨store0, 0, 0, false, if ce = true then 0 else 1, 0, [], false⟩).updated > 0
        then serialize (runDates f ro (dateRange (computeStart today store0) today)
          ⟨store0, 0, 0, false, if ce = true then 0 else 1, 0, [], false⟩).store
        else file0,
        if (runDates f ro (dateRange (computeStart today store0) today)
          ⟨store0, 0, 0, false, if ce = true then 0 else 1, 0, [], false⟩).updated > 0
        then writeObservable file0
          (serialize (runDates f ro (dateRange (computeStart today store0) today)
            ⟨store0, 0, 0, false, if ce = true then 0 else 1, 0, [], false⟩).store)
        else [file0],
        (runDates f ro (dateRange (computeStart today store0) today)
          ⟨store0, 0, 0, false, if ce = true then 0 else 1, 0, [], false⟩).updated,
        (runDates f ro (dateRange (computeStart today store0) today)
          ⟨store0, 0, 0, false, if ce = true then 0 else 1, 0, [], false⟩).acquireCount,
        (runDates f ro (dateRange (computeStart today store0) today)
          ⟨store0, 0, 0, false, if ce = true then 0 else 1, 0, [], false⟩).refreshCount,
        (runDates f ro (dateRange (computeStart today store0) today)
          ⟨store0, 0, 0, false, if ce = true then 0 else 1, 0, [], false⟩).fetchLog,
        (runDates f ro (dateRange (computeStart today store0) today)
          ⟨store0, 0, 0, false, if ce = true then 0 else 1, 0, [], false⟩).aborted,
        (runDates f ro (dateRange (computeStart today store0) today)
          ⟨store0, 0, 0, false, if ce = true then 0 else 1, 0, [], false⟩).refreshed⟩ := by
  simp only [auto_update_data, h, Bool.false_eq_true, if_false, if_neg h2]

/-! ### Claims -/

/-- C3: when the data store already contains a record for the target
end date (the most recent weekday on or before the current date), the
run is a no-op: `updated_count = 0`, the rate client and the cookie
acquirer are never invoked, and both the in-memory store and the data
file are left unchanged. -/
theorem C3_noop_when_target_present (f : Bool → Nat → Option JsonBody)
    (ro ce io : Bool) (today : Nat) (store0 : Store) (file0 : String)
    (h : store0.hasDay (expectedOf today) = true) :
    auto_update_data f ro ce io today store0 file0 =
      ⟨store0, file0, [file0], 0, 0, 0, [], false, false⟩ := by
  simp [auto_update_data, h]

/-- Witness for C3 at a concrete input: today is day 4 (a Friday), the
store already holds day 4. -/
theorem C3_witness :
    (Store.hasDay [(4, (1 : Rat))] (expectedOf 4) = true) ∧
    auto_update_data failStub true true true 4 [(4, (1 : Rat))] "x" =
      ⟨[(4, (1 : Rat))], "x", ["x"], 0, 0, 0, [], false, false⟩ :=
  ⟨by decide, C3_noop_when_target_present failStub true true true 4 [(4, (1 : Rat))] "x"
    (by decide)⟩

/-- C9: `get_exchange_rate` never raises to its caller: for every
outcome of the HTTP interaction the result is a normal return, and both
a transport-level error and a 200 response with a non-JSON body are
swallowed into the failure return `None`. -/
theorem C9_never_raises :
    (∀ r : HttpResult, ∃ v : Option JsonBody, get_exchange_rate r = .ok v) ∧
    (∀ m : String, get_exchange_rate (.err m) = .ok none) ∧
    get_exchange_rate (.resp 200 none) = .ok none := by
  refine ⟨?_, fun m => rfl, rfl⟩
  intro r
  cases htry : get_exchange_rate_try r with
  | error e => exact ⟨none, by simp [get_exchange_rate, htry]⟩
  | ok v => exact ⟨v, by simp [get_exchange_rate, htry]⟩

/-- C4 counterexample: the code does not return distinct outcomes for
an authentication failure and a transient failure: a 403 response and a
500 response both evaluate to the same `None` return, and a 200
response whose body lacks the conversion-rate field is returned as the
body itself, not as a failure. -/
theorem C4_counterexample :
    get_exchange_rate (.resp 403 (some .missingField)) =
      get_exchange_rate (.resp 500 (some .missingField)) ∧
    get_exchange_rate (.resp 403 (some .missingField)) = .ok none ∧
    get_exchange_rate (.resp 200 (some .missingField)) = .ok (some .missingField) :=
  ⟨rfl, rfl, rfl⟩

/-- C4 amended: `get_exchange_rate` returns the parsed JSON body on any
200 response (even one missing the rate field) and `None` on a 403, on
any other non-200 status, on a non-JSON 200 body, and on a transport
error; the 403 case is not distinguishable from the other failures in
the return value. -/
theorem C4_amended_return_shape :
    (∀ b : JsonBody, get_exchange_rate (.resp 200 (some b)) = .ok (some b)) ∧
    (∀ bo : Option JsonBody, get_exchange_rate (.resp 403 bo) = .ok none) ∧
    (∀ (st : Nat) (bo : Option JsonBody), st ≠ 200 →
      get_exchange_rate (.resp st bo) = .ok none) ∧
    get_exchange_rate (.resp 200 none) = .ok none ∧
    (∀ m : String, get_exchange_rate (.err m) = .ok none) := by
  refine ⟨fun b => rfl, fun bo => by cases bo <;> rfl, ?_, rfl, fun m => rfl⟩
  intro st bo hst
  by_cases h403 : st = 403
  · subst h403; cases bo <;> rfl
  · unfold get_exchange_rate get_exchange_rate_try
    split <;> simp_all

/-- Witness for C4's amended theorem at a concrete input: status 500. -/
theorem C4_witness :
    (500 : Nat) ≠ 200 ∧ get_exchange_rate (.resp 500 none) = .ok none :=
  ⟨by decide, C4_amended_return_shape.2.2.1 500 none (by decide)⟩

/-- C7: the data file is rewritten only when the run added at least one
record: a run with `updated_count = 0` (in particular a second
back-to-back run that finds no new data) leaves the file byte-for-byte
unchanged, and a run with `updated_count > 0` replaces it with the
serialization of the full final mapping. -/
theorem C7_file_rewrite_iff_updated (f : Bool → Nat → Option JsonBody)
    (ro ce io : Bool) (today : Nat) (store0 : Store) (file0 : String) :
    ((auto_update_data f ro ce io today store0 file0).updated = 0 →
      (auto_update_data f ro ce io today store0 file0).file = file0) ∧
    (0 < (auto_update_data f ro ce io today store0 file0).updated →
      (auto_update_data f ro ce io today store0 file0).file =
        serialize (auto_update_data f ro ce io today store0 file0).store) := by
  by_cases h : store0.hasDay (expectedOf today) = true
  · rw [run_eq_present f ro ce io today store0 file0 h]
    exact ⟨fun _ => rfl, fun h2 => absurd h2 (by simp)⟩
  · have h1 : store0.hasDay (expectedOf today) = false := bool_eq_false_of_not h
    by_cases h2 : ce = false ∧ io = false
    · obtain ⟨hc, hi⟩ := h2
      subst hc; subst hi
      rw [run_eq_acquireFail f ro today store0 file0 h1]
      exact ⟨fun _ => rfl, fun h3 => absurd h3 (by simp)⟩
    · rw [run_eq_main f ro ce io today store0 file0 h1 h2]
      dsimp only
      constructor
      · intro hupd
        simp [hupd]
      · intro hupd
        rw [if_pos hupd]

/-- Witness for C7 at concrete inputs: a no-op run (target date already
present) leaves the file untouched, and a successful run rewrites it
with the full serialized mapping. -/
theorem C7_witness :
    ((auto_update_data failStub true true true 4 [(4, (1 : Rat))] "x").updated = 0 ∧
     (auto_update_data failStub true true true 4 [(4, (1 : Rat))] "x").file = "x") ∧
    (0 < (auto_update_data succStub true true true 4 [(0, (1 : Rat))] "x").updated ∧
     (auto_update_data succStub true true true 4 [(0, (1 : Rat))] "x").file =
       serialize (auto_update_data succStub true true true 4 [(0, (1 : Rat))] "x").store) :=
  ⟨⟨by decide,
    (C7_file_rewrite_iff_updated failStub true true true 4 [(4, (1 : Rat))] "x").1
      (by decide)⟩,
   ⟨by decide,
    (C7_file_rewrite_iff_updated succStub true true true 4 [(0, (1 : Rat))] "x").2
      (by decide)⟩⟩

/-- C1: with a rate client that fails on every call (under both cookie
generations), cookies present at start, a working acquirer, the target
date absent, and at least three absent weekdays in the walked range,
the run performs exactly one cookie refresh, aborts early after the
failure counter reaches 2 post-refresh, makes exactly four client calls
(first date twice because of the immediate retry, then two more dates),
adds nothing to the store, and returns `updated_count = 0` with the data
file untouched. -/
theorem C1_circuit_breaker_all_fail (today : Nat) (store0 : Store) (file0 : String)
    (habsent : store0.hasDay (expectedOf today) = false)
    (hcnt : 3 ≤ countMissing store0 (dateRange (computeStart today store0) today)) :
    (auto_update_data failStub true true true today store0 file0).updated = 0 ∧
    (auto_update_data failStub true true true today store0 file0).acquireCount = 1 ∧
    (auto_update_data failStub true true true today store0 file0).refreshCount = 1 ∧
    (auto_update_data failStub true true true today store0 file0).aborted = true ∧
    (auto_update_data failStub true true true today store0 file0).fetchLog.length = 4 ∧
    (auto_update_data failStub true true true today store0 file0).store = store0 ∧
    (auto_update_data failStub true true true today store0 file0).file = file0 := by
  rw [run_eq_main failStub true true true today store0 file0 habsent (by simp)]
  have hif : (if (true : Bool) = true then (0 : Nat) else 1) = 0 := if_pos rfl
  rw [hif]
  dsimp only
  obtain ⟨g1, g2, g3, g4, g5, g6⟩ :=
    runDates_failStub_fresh (dateRange (computeStart today store0) today)
      ⟨store0, 0, 0, false, 0, 0, [], false⟩ rfl rfl hcnt
  refine ⟨g2, ?_, ?_, g1, g6, g3, ?_⟩
  · rw [g4]
  · rw [g5]
  · simp [g2]

/-- Witness for C1: today is day 4 (a Friday), the store holds only day
0, so days 1-4 are absent weekdays. -/
theorem C1_witness :
    (Store.hasDay [(0, (1 : Rat))] (expectedOf 4) = false ∧
     3 ≤ countMissing [(0, (1 : Rat))] (dateRange (computeStart 4 [(0, (1 : Rat))]) 4)) ∧
    ((auto_update_data failStub true true true 4 [(0, (1 : Rat))] "x").updated = 0 ∧
     (auto_update_data failStub true true true 4 [(0, (1 : Rat))] "x").acquireCount = 1 ∧
     (auto_update_data failStub true true true 4 [(0, (1 : Rat))] "x").refreshCount = 1 ∧
     (auto_update_data failStub true true true 4 [(0, (1 : Rat))] "x").aborted = true ∧
     (auto_update_data failStub true true true 4 [(0, (1 : Rat))] "x").fetchLog.length = 4 ∧
     (auto_update_data failStub true true true 4 [(0, (1 : Rat))] "x").store = [(0, (1 : Rat))] ∧
     (auto_update_data failStub true true true 4 [(0, (1 : Rat))] "x").file = "x") :=
  ⟨⟨by decide, by decide⟩,
   C1_circuit_breaker_all_fail 4 [(0, (1 : Rat))] "x" (by decide) (by decide)⟩

/-- C2 counterexample: with no persisted cookie set, a successful
startup acquisition and a failing client, a single run invokes the
cookie acquirer twice (startup acquisition at
src/app/__init__.py lines 144-159, then the mid-run refresh at lines
209-220), so "at most once counting every acquisition" is false. -/
theorem C2_counterexample :
    (auto_update_data failStub true false true 4 [(0, (1 : Rat))] "x").acquireCount = 2 ∧
    ¬ ((auto_update_data failStub true false true 4 [(0, (1 : Rat))] "x").acquireCount ≤ 1) := by
  constructor <;> decide

/-- C2 amended: within one run the mid-run cookie refresh happens at
most once; counting the startup acquisition performed when no cookie
file exists, the cookie acquirer is invoked at most twice, and at most
once whenever a cookie file exists at run start (so the
`cookies_refreshed` flag, set only by the single mid-run refresh, still
flips at most once). -/
theorem C2_amended_acquire_bounds (f : Bool → Nat → Option JsonBody)
    (ro ce io : Bool) (today : Nat) (store0 : Store) (file0 : String) :
    (auto_update_data f ro ce io today store0 file0).refreshCount ≤ 1 ∧
    (auto_update_data f ro ce io today store0 file0).acquireCount ≤ 2 ∧
    (ce = true → (auto_update_data f ro ce io today store0 file0).acquireCount ≤ 1) := by
  by_cases h : store0.hasDay (expectedOf today) = true
  · rw [run_eq_present f ro ce io today store0 file0 h]
    exact ⟨by simp, by simp, fun _ => by simp⟩
  · have h1 : store0.hasDay (expectedOf today) = false := bool_eq_false_of_not h
    by_cases h2 : ce = false ∧ io = false
    · obtain ⟨hc, hi⟩ := h2
      subst hc; subst hi
      rw [run_eq_acquireFail f ro today store0 file0 h1]
      exact ⟨by simp, by simp, fun hce => by cases hce⟩
    · rw [run_eq_main f ro ce io today store0 file0 h1 h2]
      dsimp only
      by_cases hce : ce = true
      · subst hce
        have hif : (if (true : Bool) = true then (0 : Nat) else 1) = 0 := if_pos rfl
        rw [hif]
        obtain ⟨ga, gr⟩ := runDates_refresh_atMostOnce f ro
          (dateRange (computeStart today store0) today)
          ⟨store0, 0, 0, false, 0, 0, [], false⟩ rfl
        dsimp only at ga gr
        exact ⟨by omega, by omega, fun _ => by omega⟩
      · have hce2 : ce = false := bool_eq_false_of_not hce
        subst hce2
        have hif : (if (false : Bool) = true then (0 : Nat) else 1) = 1 := if_neg (by simp)
        rw [hif]
        obtain ⟨ga, gr⟩ := runDates_refresh_atMostOnce f ro
          (dateRange (computeStart today store0) today)
          ⟨store0, 0, 0, false, 1, 0, [], false⟩ rfl
        dsimp only at ga gr
        exact ⟨by omega, by omega, fun hc => absurd hc (by simp)⟩

/-- Witness for C2's amended theorem at a concrete input with cookies
present. -/
theorem C2_witness :
    (auto_update_data failStub true true true 4 [(0, (1 : Rat))] "x").refreshCount ≤ 1 ∧
    (auto_update_data failStub true true true 4 [(0, (1 : Rat))] "x").acquireCount ≤ 1 :=
  ⟨(C2_amended_acquire_bounds failStub true true true 4 [(0, (1 : Rat))] "x").1,
   (C2_amended_acquire_bounds failStub true true true 4 [(0, (1 : Rat))] "x").2.2 rfl⟩

/-- C5: every record the run adds to the store is keyed by a weekday
(records already present at load are untouched), and the rate client is
only ever invoked on weekday dates. -/
theorem C5_weekday_only (f : Bool → Nat → Option JsonBody) (ro ce io : Bool)
    (today : Nat) (store0 : Store) (file0 : String) :
    (∀ p, p ∈ (auto_update_data f ro ce io today store0 file0).store →
      p ∈ store0 ∨ p.1 % 7 < 5) ∧
    (∀ x, x ∈ (auto_update_data f ro ce io today store0 file0).fetchLog →
      x % 7 < 5) := by
  by_cases h : store0.hasDay (expectedOf today) = true
  · rw [run_eq_present f ro ce io today store0 file0 h]
    exact ⟨fun p hp => Or.inl hp, fun x hx => absurd hx (List.not_mem_nil x)⟩
  · have h1 : store0.hasDay (expectedOf today) = false := bool_eq_false_of_not h
    by_cases h2 : ce = false ∧ io = false
    · obtain ⟨hc, hi⟩ := h2
      subst hc; subst hi
      rw [run_eq_acquireFail f ro today store0 file0 h1]
      exact ⟨fun p hp => Or.inl hp, fun x hx => absurd hx (List.not_mem_nil x)⟩
    · rw [run_eq_main f ro ce io today store0 file0 h1 h2]
      dsimp only
      obtain ⟨hs, hl⟩ := runDates_weekday_inv f ro
        (dateRange (computeStart today store0) today)
        ⟨store0, 0, 0, false, if ce = true then 0 else 1, 0, [], false⟩
      constructor
      · intro p hp
        rcases hs p hp with hmem | hwk
        · exact Or.inl hmem
        · exact Or.inr hwk
      · intro x hx
        rcases hl x hx with hmem | hwk
        · exact absurd hmem (List.not_mem_nil x)
        · exact hwk

/-- Witness for C5 at a concrete input: an all-success run over days
1-4 adds the weekday record for day 1 and the client log holds only
weekdays. -/
theorem C5_witness :
    ((1, (26 : Rat)) ∈
       (auto_update_data succStub true true true 4 [(0, (1 : Rat))] "x").store ∧
     ((1, (26 : Rat)) ∈ ([(0, (1 : Rat))] : Store) ∨ 1 % 7 < 5)) ∧
    (1 ∈ (auto_update_data succStub true true true 4 [(0, (1 : Rat))] "x").fetchLog ∧
     1 % 7 < 5) := by
  have hst : (auto_update_data succStub true true true 4 [(0, (1 : Rat))] "x").store =
      [(0, (1 : Rat)), (1, (26 : Rat)), (2, (26 : Rat)),
       (3, (26 : Rat)), (4, (26 : Rat))] := by decide
  have hlog : (auto_update_data succStub true true true 4 [(0, (1 : Rat))] "x").fetchLog =
      [1, 2, 3, 4] := by decide
  have hmem : (1, (26 : Rat)) ∈
      (auto_update_data succStub true true true 4 [(0, (1 : Rat))] "x").store := by
    rw [hst]; simp
  have hmem2 : 1 ∈
      (auto_update_data succStub true true true 4 [(0, (1 : Rat))] "x").fetchLog := by
    rw [hlog]; simp
  exact ⟨⟨hmem,
    (C5_weekday_only succStub true true true 4 [(0, (1 : Rat))] "x").1
      (1, (26 : Rat)) hmem⟩,
   ⟨hmem2,
    (C5_weekday_only succStub true true true 4 [(0, (1 : Rat))] "x").2 1 hmem2⟩⟩

set_option maxRecDepth 1000000 in
/-- C6 counterexample: with an empty store and the current date 370 (a
Sunday; target end 368, the preceding Friday), the loop starts at day
190 = `today - 180`, not at `targetEnd - 180 = 188`; the weekday 189
inside the claimed span is never attempted, and with an all-success
client the run adds one record fewer than the weekday count of the
claimed span. -/
theorem C6_counterexample :
    computeStart 370 [] = 190 ∧
    expectedOf 370 = 368 ∧
    ¬ (computeStart 370 [] = expectedOf 370 - 180) ∧
    (189 % 7 < 5) ∧
    ¬ (189 ∈ (auto_update_data succStub true true true 370 [] "x").fetchLog) ∧
    (auto_update_data succStub true true true 370 [] "x").updated =
      countWeekdays 190 370 ∧
    countWeekdays (expectedOf 370 - 180) (expectedOf 370) = countWeekdays 190 370 + 1 ∧
    ¬ ((auto_update_data succStub true true true 370 [] "x").updated =
      countWeekdays (expectedOf 370 - 180) (expectedOf 370)) := by
  refine ⟨by decide, by decide, by decide, by decide, by decide, by decide, by decide,
    by decide⟩

/-- C6 amended: with an empty store the loop's start date is
`today - maxBackfillDays` (one day after `today - 181`), which
coincides with `targetEnd - maxBackfillDays` exactly when the current
date is itself a weekday; the run attempts precisely the weekdays of
the span from that start through `today` (equivalently through
`targetEnd`, as the later days of the span are weekend days), and with
an all-success client `updated_count` is the number of weekdays in that
span. -/
theorem C6_amended_backfill_span (today : Nat) (file0 : String)
    (h181 : 181 ≤ today) :
    computeStart today [] = today - 180 ∧
    (today % 7 < 5 → computeStart today [] = expectedOf today - 180) ∧
    (auto_update_data succStub true true true today [] file0).updated =
      countWeekdays (today - 180) today ∧
    (auto_update_data succStub true true true today [] file0).fetchLog =
      (dateRange (today - 180) today).filter (fun d => d % 7 < 5) := by
  have hstart : computeStart today [] = today - 180 := by
    simp only [computeStart, List.isEmpty_nil, if_pos]
    omega
  have habs : Store.hasDay [] (expectedOf today) = false := rfl
  have hrun := run_eq_main succStub true true true today [] file0 habs (by simp)
  have hif : (if (true : Bool) = true then (0 : Nat) else 1) = 0 := if_pos rfl
  rw [hif] at hrun
  have hnd : (dateRange (computeStart today []) today).Nodup := by
    simp only [dateRange]
    exact List.nodup_range' _ _
  obtain ⟨g1, g2, g3, g4⟩ := runDates_succStub true
    (dateRange (computeStart today []) today)
    ⟨[], 0, 0, false, 0, 0, [], false⟩ rfl hnd (fun d _ => rfl)
  refine ⟨hstart, ?_, ?_, ?_⟩
  · intro hw
    have hexp : expectedOf today = today := by
      unfold expectedOf
      rw [if_neg (by omega), if_neg (by omega)]
    rw [hexp, hstart]
  · rw [hrun]
    dsimp only
    rw [g1, hstart]
    simp [countWeekdays]
  · rw [hrun]
    dsimp only
    rw [g2, hstart]
    simp

/-- Witness for C6's amended theorem: the scenario date as a day
number, `today = 368` (a Friday, so `targetEnd = today`). -/
theorem C6_witness :
    181 ≤ 368 ∧
    computeStart 368 [] = 368 - 180 ∧
    (auto_update_data succStub true true true 368 [] "x").updated =
      countWeekdays (368 - 180) 368 :=
  ⟨by decide, (C6_amended_backfill_span 368 "x" (by decide)).1,
    (C6_amended_backfill_span 368 "x" (by decide)).2.2.1⟩

/-- C8 counterexample: the rewrite of the data file is not atomic: the
in-place truncate-then-write exposes an intermediate observable file
state (the truncated, empty file) that is neither the previous content
nor the new full serialized mapping, so a concurrent reader can observe
a partially-written file. -/
theorem C8_counterexample :
    0 < (auto_update_data succStub true true true 4 [(0, (1 : Rat))] "x").updated ∧
    "" ∈ (auto_update_data succStub true true true 4 [(0, (1 : Rat))] "x").fileStates ∧
    ¬ ("" = "x") ∧
    ¬ ("" = (auto_update_data succStub true true true 4 [(0, (1 : Rat))] "x").file) := by
  refine ⟨by decide, by decide, by decide, by decide⟩

/-- C8 amended: whenever a run adds at least one record the data file
is overwritten wholesale with the serialization of the full in-memory
mapping (write-all, not append) — but not atomically: the observable
write sequence is old content, truncated file, new content, so the
truncated intermediate state is visible to a concurrent reader. -/
theorem C8_amended_wholesale_write (f : Bool → Nat → Option JsonBody)
    (ro ce io : Bool) (today : Nat) (store0 : Store) (file0 : String)
    (h : 0 < (auto_update_data f ro ce io today store0 file0).updated) :
    (auto_update_data f ro ce io today store0 file0).file =
      serialize (auto_update_data f ro ce io today store0 file0).store ∧
    (auto_update_data f ro ce io today store0 file0).fileStates =
      writeObservable file0
        (serialize (auto_update_data f ro ce io today store0 file0).store) ∧
    "" ∈ (auto_update_data f ro ce io today store0 file0).fileStates := by
  by_cases hx : store0.hasDay (expectedOf today) = true
  · rw [run_eq_present f ro ce io today store0 file0 hx] at h
    exact absurd h (by simp)
  · have h1 : store0.hasDay (expectedOf today) = false := bool_eq_false_of_not hx
    by_cases h2 : ce = false ∧ io = false
    · obtain ⟨hc, hi⟩ := h2
      subst hc; subst hi
      rw [run_eq_acquireFail f ro today store0 file0 h1] at h
      exact absurd h (by simp)
    · rw [run_eq_main f ro ce io today store0 file0 h1 h2] at h ⊢
      dsimp only at h ⊢
      simp only [if_pos h]
      refine ⟨by simp, by simp, by simp [writeObservable]⟩

/-- Witness for C8's amended theorem at a concrete input. -/
theorem C8_witness :
    0 < (auto_update_data succStub true true true 4 [] "x").updated ∧
    (auto_update_data succStub true true true 4 [] "x").file =
      serialize (auto_update_data succStub true true true 4 [] "x").store ∧
    "" ∈ (auto_update_data succStub true true true 4 [] "x").fileStates :=
  ⟨by decide,
   (C8_amended_wholesale_write succStub true true true 4 [] "x" (by decide)).1,
   (C8_amended_wholesale_write succStub true true true 4 [] "x" (by decide)).2.2⟩

/-- C10: when the un-refreshed run hits a failing missing weekday and
the refresh succeeds, the iteration ends with the failure counter reset
to 0 and the flag set, the same date retried exactly once (two client
calls for it), and no abort regardless of the retry's outcome — the
loop therefore advances past the retried date; moreover with a working
acquirer an iteration can only abort if the state was already aborted
or already refreshed, so the post-refresh abort can only be triggered
on dates after the refresh date. -/
theorem C10_retry_not_counted (f : Bool → Nat → Option JsonBody) (d : Nat)
    (s : OrchSt) (hw : d % 7 < 5) (hp : s.store.hasDay d = false)
    (hr : s.refreshed = false)
    (hf : f false d = none ∨ f false d = some .missingField) :
    ((stepDate f true d s).failed = 0 ∧
     (stepDate f true d s).refreshed = true ∧
     (stepDate f true d s).aborted = s.aborted ∧
     (stepDate f true d s).fetchLog = s.fetchLog ++ [d, d]) ∧
    (∀ (d2 : Nat) (s2 : OrchSt), (stepDate f true d2 s2).aborted = true →
      s2.aborted = true ∨ s2.refreshed = true) := by
  have hf2 : f s.refreshed d = none ∨ f s.refreshed d = some .missingField := by
    rw [hr]; exact hf
  constructor
  · by_cases h2 : ∃ rate, f true d = some (.withRate rate)
    · obtain ⟨rate, h2⟩ := h2
      rw [stepDate_fail_fresh_retrySucc f d s rate hw hp hr hf2 h2]
      exact ⟨rfl, rfl, rfl, rfl⟩
    · rw [stepDate_fail_fresh_retryFail f d s hw hp hr hf2 (fun r hc => h2 ⟨r, hc⟩)]
      exact ⟨rfl, rfl, rfl, rfl⟩
  · intro d2 s2 habort
    rcases Bool.eq_false_or_eq_true s2.refreshed with hr2 | hr2
    · exact Or.inr hr2
    · left
      by_cases hw2 : d2 % 7 < 5
      · by_cases hp2 : s2.store.hasDay d2 = true
        · rwa [stepDate_present f true d2 s2 hw2 hp2] at habort
        · have hp3 := bool_eq_false_of_not hp2
          rcases hfr : f s2.refreshed d2 with _ | b
          · by_cases h2 : ∃ rate, f true d2 = some (.withRate rate)
            · obtain ⟨rate, h2⟩ := h2
              rwa [stepDate_fail_fresh_retrySucc f d2 s2 rate hw2 hp3 hr2
                (Or.inl hfr) h2] at habort
            · rwa [stepDate_fail_fresh_retryFail f d2 s2 hw2 hp3 hr2 (Or.inl hfr)
                (fun r hc => h2 ⟨r, hc⟩)] at habort
          · cases b with
            | missingField =>
                by_cases h2 : ∃ rate, f true d2 = some (.withRate rate)
                · obtain ⟨rate, h2⟩ := h2
                  rwa [stepDate_fail_fresh_retrySucc f d2 s2 rate hw2 hp3 hr2
                    (Or.inr hfr) h2] at habort
                · rwa [stepDate_fail_fresh_retryFail f d2 s2 hw2 hp3 hr2 (Or.inr hfr)
                    (fun r hc => h2 ⟨r, hc⟩)] at habort
            | badValue =>
                rwa [stepDate_badValue f true d2 s2 hw2 hp3 hfr] at habort
            | withRate rate =>
                rwa [stepDate_success f true d2 s2 rate hw2 hp3 hfr] at habort
      · rwa [stepDate_weekend f true d2 s2 hw2] at habort

/-- Witness for C10 at a concrete input: day 1 with a failing client
and a fresh state; the iteration refreshes, retries day 1 once, resets
the counter and does not abort. -/
theorem C10_witness :
    ((stepDate failStub true 1 ⟨[(0, (1 : Rat))], 0, 0, false, 0, 0, [], false⟩).failed = 0 ∧
     (stepDate failStub true 1 ⟨[(0, (1 : Rat))], 0, 0, false, 0, 0, [], false⟩).refreshed = true ∧
     (stepDate failStub true 1 ⟨[(0, (1 : Rat))], 0, 0, false, 0, 0, [], false⟩).aborted =
       (⟨[(0, (1 : Rat))], 0, 0, false, 0, 0, [], false⟩ : OrchSt).aborted ∧
     (stepDate failStub true 1 ⟨[(0, (1 : Rat))], 0, 0, false, 0, 0, [], false⟩).fetchLog =
       (⟨[(0, (1 : Rat))], 0, 0, false, 0, 0, [], false⟩ : OrchSt).fetchLog ++ [1, 1]) ∧
    ((⟨[], 0, 1, true, 1, 1, [], false⟩ : OrchSt).aborted = true ∨
     (⟨[], 0, 1, true, 1, 1, [], false⟩ : OrchSt).refreshed = true) :=
  ⟨(C10_retry_not_counted failStub 1 ⟨[(0, (1 : Rat))], 0, 0, false, 0, 0, [], false⟩
      (by decide) (by decide) rfl (Or.inl rfl)).1,
   (C10_retry_not_counted failStub 1 ⟨[(0, (1 : Rat))], 0, 0, false, 0, 0, [], false⟩
      (by decide) (by decide) rfl (Or.inl rfl)).2 2
      ⟨[], 0, 1, true, 1, 1, [], false⟩ (by decide)⟩
